import Mathlib

/-!
Verification of the energy-tools analysis script (`energy_analysis.py`).

The script is embedded shallowly over exact rationals: Python/numpy floats
become `ℚ`, calendar dates become ordinal day numbers `ℤ`, pandas columns
become `List`s of records, and numpy operations that silently yield NaN are
embedded as `Option ℚ` with `none` standing for the NaN sentinel.
-/

/-- One row of the billing-history table (`kwhhistory.csv`):
start/end dates (as ordinal day numbers), usage (kWh), billed amount (USD)
and the provider label. -/
structure BillingRow where
  startDate : ℤ
  endDate : ℤ
  usage : ℚ
  bill : ℚ
  provider : String
deriving DecidableEq, Repr

/-- One row of the daily climate table (`dfw.csv`): date (ordinal day
number), daily high and daily low temperature. -/
structure ClimateRecord where
  date : ℤ
  high : ℚ
  low : ℚ
deriving DecidableEq, Repr

/-- Daily mean temperature, from the loop at line 75-77 of the source:
`avg_temp[i] = (highs[i] + lows[i]) / 2.0`. -/
def avg_temp (r : ClimateRecord) : ℚ :=
  (r.high + r.low) / 2

/-- Embedding of `numpy.mean` on a slice: the mean of the entries when the
slice is non-empty, and `none` (numpy's silent NaN, emitted with only a
RuntimeWarning) when the slice is empty. -/
def npMean (xs : List ℚ) : Option ℚ :=
  if xs.length = 0 then none else some (xs.sum / (xs.length : ℚ))

/-- Billing-cycle window average temperature, from lines 80-84 of the
source: the `numpy.mean` of `avg_temp` over the climate records whose date
lies in `[startDate, endDate]` inclusive (`climo_datetimes >= start` and
`climo_datetimes <= end`). An empty window yields the NaN sentinel
(`none`); the source stores it and keeps computing. -/
def cycle_avg_temp (climo : List ClimateRecord) (row : BillingRow) : Option ℚ :=
  npMean ((climo.filter
    (fun r => decide (row.startDate ≤ r.date ∧ r.date ≤ row.endDate))).map avg_temp)

/-- Usage normalization to a 30-day base, from lines 87-90 of the source:
`electric_norm[i] = electric_usage[i] / (days / 30.0)` where `days` is the
signed day count `end - start`. The source performs the division
unconditionally, with no validity check on `days`. -/
def electric_norm (usage : ℚ) (days : ℚ) : ℚ :=
  usage / (days / 30)

/-- Result triple of `costProjection` (source returns
`expected, expensive, cheap`). -/
structure Projection where
  expected : ℚ
  expensive : ℚ
  cheap : ℚ
deriving Repr

/-- Embedding of `costProjection` (lines 32-44 of the source), argument
order as in the source: whichever of `lower`/`upper` is strictly farther
from `critical` is evaluated as `expensive` and the other as `cheap`; the
final `else` branch (covering the tie) takes `expensive = func upper`,
`cheap = func lower`; `expected = func avg` in every case. -/
def costProjection (avg lower upper critical : ℚ) (func : ℚ → ℚ) : Projection :=
  if |lower - critical| > |upper - critical| then
    { expected := func avg, expensive := func lower, cheap := func upper }
  else if |upper - critical| > |lower - critical| then
    { expected := func avg, expensive := func upper, cheap := func lower }
  else
    { expected := func avg, expensive := func upper, cheap := func lower }

/-- C1: `costProjection` labels as expensive the evaluation of the model at
whichever bound is strictly farther from the critical point and as cheap
the evaluation at the nearer bound, and on a tie of distances it returns
`expensive = func upper` and `cheap = func lower`. -/
theorem costProjection_far_cheap_cases (f : ℚ → ℚ) (avg lower upper critical : ℚ) :
    (|lower - critical| > |upper - critical| →
      (costProjection avg lower upper critical f).expensive = f lower ∧
      (costProjection avg lower upper critical f).cheap = f upper) ∧
    (|upper - critical| > |lower - critical| →
      (costProjection avg lower upper critical f).expensive = f upper ∧
      (costProjection avg lower upper critical f).cheap = f lower) ∧
    (|lower - critical| = |upper - critical| →
      (costProjection avg lower upper critical f).expensive = f upper ∧
      (costProjection avg lower upper critical f).cheap = f lower) := by
  unfold costProjection
  refine ⟨fun h => ?_, fun h => ?_, fun h => ?_⟩
  · rw [if_pos h]
    exact ⟨rfl, rfl⟩
  · rw [if_neg (not_lt.mpr h.le), if_pos h]
    exact ⟨rfl, rfl⟩
  · rw [if_neg (by simp [h]), if_neg (by simp [h])]
    exact ⟨rfl, rfl⟩

/-- Concrete instantiations of the three cases of
`costProjection_far_cheap_cases`: critical point 10 with bounds (0, 12)
(lower farther), (9, 20) (upper farther) and (5, 15) (tie, the spec's
tie-case test). -/
theorem costProjection_far_cheap_cases_witness :
    ((costProjection 7 0 12 10 id).expensive = id 0 ∧
      (costProjection 7 0 12 10 id).cheap = id 12) ∧
    ((costProjection 7 9 20 10 id).expensive = id 20 ∧
      (costProjection 7 9 20 10 id).cheap = id 9) ∧
    ((costProjection 7 5 15 10 id).expensive = id 15 ∧
      (costProjection 7 5 15 10 id).cheap = id 5) :=
  ⟨(costProjection_far_cheap_cases id 7 0 12 10).1 (by norm_num),
   (costProjection_far_cheap_cases id 7 9 20 10).2.1 (by norm_num),
   (costProjection_far_cheap_cases id 7 5 15 10).2.2 (by norm_num)⟩

/-- C9: `costProjection` always returns `expected = f avg`, and its
(expensive, cheap) pair is always a permutation of `(f lower, f upper)` —
the range outputs are never evaluations at any other temperature. -/
theorem costProjection_range_is_bounds (f : ℚ → ℚ) (avg lower upper critical : ℚ) :
    (costProjection avg lower upper critical f).expected = f avg ∧
    (((costProjection avg lower upper critical f).expensive = f lower ∧
        (costProjection avg lower upper critical f).cheap = f upper) ∨
      ((costProjection avg lower upper critical f).expensive = f upper ∧
        (costProjection avg lower upper critical f).cheap = f lower)) := by
  unfold costProjection
  split_ifs <;> simp

/-- Provider list, from lines 96-97 of the source:
`providers = set(electric_provider); provider_list = list(providers)` —
the distinct provider labels occurring in the billing rows. -/
def provider_list (rows : List BillingRow) : List String :=
  (rows.map (fun r => r.provider)).dedup

/-- Accumulated usage for one provider, from the loop at lines 101-104 of
the source: starting from `0.0`, every row whose provider label equals `p`
adds its usage. -/
def provider_amount (rows : List BillingRow) (p : String) : ℚ :=
  rows.foldl (fun acc r => if p = r.provider then acc + r.usage else acc) 0

/-- Accumulated billed amount for one provider, from the same loop
(line 105 of the source). -/
def provider_billed (rows : List BillingRow) (p : String) : ℚ :=
  rows.foldl (fun acc r => if p = r.provider then acc + r.bill else acc) 0

/-- Provider rate, line 106 of the source:
`provider_rate[provider] = provider_billed[provider] / provider_amount[provider]`,
an unconditional division. -/
def provider_rate (rows : List BillingRow) (p : String) : ℚ :=
  provider_billed rows p / provider_amount rows p

/-- Restatement of the spec in its own words: the total usage of the rows
referencing provider `p`, grouping by equality of the identifier. -/
def totalUsage (rows : List BillingRow) (p : String) : ℚ :=
  ((rows.filter (fun r => decide (p = r.provider))).map (fun r => r.usage)).sum

/-- Restatement of the spec in its own words: the total billed amount of
the rows referencing provider `p`. -/
def totalBilled (rows : List BillingRow) (p : String) : ℚ :=
  ((rows.filter (fun r => decide (p = r.provider))).map (fun r => r.bill)).sum

/-- The source's accumulate-with-an-if fold equals the sum of a projection
over the rows whose provider matches. -/
lemma foldl_accum_eq_filter_sum (rows : List BillingRow) (p : String)
    (f : BillingRow → ℚ) (a : ℚ) :
    rows.foldl (fun acc r => if p = r.provider then acc + f r else acc) a
      = a + ((rows.filter (fun r => decide (p = r.provider))).map f).sum := by
  induction rows generalizing a with
  | nil => simp
  | cons r rs ih =>
    by_cases h : p = r.provider
    · subst h
      simp [List.filter_cons, ih, add_assoc]
    · simp [List.filter_cons, h, ih]

/-- C3: the provider-rate pass accumulates, per provider label, the total
usage and total billed amount over all billing rows referencing it and
returns their quotient; on a single provider with periods (usage 100,
bill 10) and (usage 200, bill 20) the rate is exactly 1/10. -/
theorem provider_rate_grouped_totals :
    (∀ (rows : List BillingRow) (p : String),
      provider_amount rows p = totalUsage rows p ∧
      provider_billed rows p = totalBilled rows p ∧
      provider_rate rows p = totalBilled rows p / totalUsage rows p) ∧
    provider_rate
      [{ startDate := 0, endDate := 30, usage := 100, bill := 10, provider := "A" },
       { startDate := 30, endDate := 60, usage := 200, bill := 20, provider := "A" }]
      "A" = 1 / 10 := by
  have hamt : ∀ (rows : List BillingRow) (p : String),
      provider_amount rows p = totalUsage rows p := fun rows p => by
    simpa using foldl_accum_eq_filter_sum rows p (fun r => r.usage) 0
  have hbil : ∀ (rows : List BillingRow) (p : String),
      provider_billed rows p = totalBilled rows p := fun rows p => by
    simpa using foldl_accum_eq_filter_sum rows p (fun r => r.bill) 0
  refine ⟨fun rows p => ⟨hamt rows p, hbil rows p, ?_⟩, ?_⟩
  · rw [provider_rate, hamt, hbil]
  · norm_num [provider_rate, provider_billed, provider_amount, List.foldl_cons, List.foldl_nil]

/-- Summing per-provider filtered sums over any set containing every
provider label of the rows recovers the plain sum over the rows. -/
lemma filtered_sum_fiber (rows : List BillingRow) (f : BillingRow → ℚ) (S : Finset String)
    (hS : ∀ r ∈ rows, r.provider ∈ S) :
    (∑ p ∈ S, ((rows.filter (fun x => decide (p = x.provider))).map f).sum)
      = (rows.map f).sum := by
  induction rows with
  | nil => simp
  | cons r rs ih =>
    have hr : r.provider ∈ S := hS r (List.mem_cons_self r rs)
    have hrs : ∀ x ∈ rs, x.provider ∈ S := fun x hx => hS x (List.mem_cons_of_mem r hx)
    have hterm : ∀ p ∈ S,
        (((r :: rs).filter (fun x => decide (p = x.provider))).map f).sum
          = (if p = r.provider then f r else 0)
            + ((rs.filter (fun x => decide (p = x.provider))).map f).sum := by
      intro p _
      by_cases h : p = r.provider
      · simp [List.filter_cons, h]
      · simp [List.filter_cons, h]
    rw [Finset.sum_congr rfl hterm, Finset.sum_add_distrib,
      Finset.sum_ite_eq' S r.provider (fun _ => f r), if_pos hr, ih hrs]
    simp

/-- Summing a function over a deduplicated list is a sum over the list's
`Finset` of elements. -/
lemma dedup_map_sum (l : List String) (g : String → ℚ) :
    (l.dedup.map g).sum = ∑ p ∈ l.toFinset, g p := by
  have h : l.dedup.toFinset = l.toFinset := by
    ext a
    simp
  rw [← List.sum_toFinset g (List.nodup_dedup l), h]

/-- C10: the aggregation pass partitions the billing rows: each provider
label appears exactly once in the iteration order (`provider_list` has no
duplicates), and the sum over all providers of the accumulated usage
equals the sum of usage over all billing rows, and likewise for billed
amounts. -/
theorem provider_totals_partition (rows : List BillingRow) :
    (provider_list rows).Nodup ∧
    ((provider_list rows).map (fun p => provider_amount rows p)).sum
      = (rows.map (fun r => r.usage)).sum ∧
    ((provider_list rows).map (fun p => provider_billed rows p)).sum
      = (rows.map (fun r => r.bill)).sum := by
  have hmem : ∀ r ∈ rows, r.provider ∈ (rows.map (fun x => x.provider)).toFinset := by
    intro r hr
    rw [List.mem_toFinset]
    exact List.mem_map.mpr ⟨r, hr, rfl⟩
  refine ⟨List.nodup_dedup _, ?_, ?_⟩
  · calc ((provider_list rows).map (fun p => provider_amount rows p)).sum
        = ∑ p ∈ (rows.map (fun x => x.provider)).toFinset, provider_amount rows p :=
          dedup_map_sum _ _
      _ = ∑ p ∈ (rows.map (fun x => x.provider)).toFinset,
            ((rows.filter (fun x => decide (p = x.provider))).map (fun r => r.usage)).sum := by
          refine Finset.sum_congr rfl (fun p _ => ?_)
          simpa using foldl_accum_eq_filter_sum rows p (fun r => r.usage) 0
      _ = (rows.map (fun r => r.usage)).sum := filtered_sum_fiber rows _ _ hmem
  · calc ((provider_list rows).map (fun p => provider_billed rows p)).sum
        = ∑ p ∈ (rows.map (fun x => x.provider)).toFinset, provider_billed rows p :=
          dedup_map_sum _ _
      _ = ∑ p ∈ (rows.map (fun x => x.provider)).toFinset,
            ((rows.filter (fun x => decide (p = x.provider))).map (fun r => r.bill)).sum := by
          refine Finset.sum_congr rfl (fun p _ => ?_)
          simpa using foldl_accum_eq_filter_sum rows p (fun r => r.bill) 0
      _ = (rows.map (fun r => r.bill)).sum := filtered_sum_fiber rows _ _ hmem

/-- C5: for positive duration the source normalization computes
`usage / (days / 30)`; it is linear in usage and inversely proportional to
duration (doubling the duration with fixed usage halves the figure). -/
theorem electric_norm_linear_inverse (u d k : ℚ) (hd : 0 < d) :
    electric_norm u d = u / (d / 30) ∧
    electric_norm (k * u) d = k * electric_norm u d ∧
    electric_norm u (2 * d) = electric_norm u d / 2 := by
  have hd0 : d ≠ 0 := ne_of_gt hd
  refine ⟨rfl, ?_, ?_⟩
  · unfold electric_norm
    rw [mul_div_assoc]
  · unfold electric_norm
    rw [div_div]
    congr 1
    ring

/-- Instantiation of `electric_norm_linear_inverse` at the spec's scenario
(900 kWh over a 30-day period, scale factor 2). -/
theorem electric_norm_linear_inverse_witness :
    electric_norm 900 30 = 900 / (30 / 30) ∧
    electric_norm (2 * 900) 30 = 2 * electric_norm 900 30 ∧
    electric_norm 900 (2 * 30) = electric_norm 900 30 / 2 :=
  electric_norm_linear_inverse 900 30 2 (by norm_num)

/-- C6 (defect witness): the source normalization has no duration check.
On a reversed billing period with day count −5 it returns the negative
figure −5400 and raises nothing (an `InvalidPeriodError` path does not
exist in the source). -/
theorem electric_norm_negative_duration_no_error :
    electric_norm 900 (-5) = -5400 := by
  norm_num [electric_norm]

/-- C2 (defect witness): with a single climate record on day 0, the source
pipeline maps a billing period covering day 0 to its window mean (60) but a
period over days 10..20, which matches zero records, to the NaN sentinel
(`none`) — and keeps going, producing a full column rather than failing
with an `EmptyWindowError` (no such error path exists in the source). -/
theorem cycle_avg_temp_empty_window_nan :
    [({ startDate := 0, endDate := 0, usage := 500, bill := 50, provider := "A" } : BillingRow),
      { startDate := 10, endDate := 20, usage := 600, bill := 60, provider := "A" }].map
        (cycle_avg_temp [{ date := 0, high := 70, low := 50 }])
      = [some 60, none] := by
  norm_num [cycle_avg_temp, npMean, avg_temp, List.filter_cons, List.filter_nil]

/-- C7 (defect witness): for a provider whose only billing rows carry zero
usage, the source still computes a rate by the unconditional division of
line 106 — in the exact-rational embedding the division by the zero total
yields 0 — instead of failing with a `ZeroUsageError` (no such error path
exists in the source). -/
theorem provider_rate_zero_usage_silent :
    provider_amount
      [({ startDate := 0, endDate := 30, usage := 0, bill := 10, provider := "A" } : BillingRow),
        { startDate := 30, endDate := 60, usage := 0, bill := 5, provider := "A" }] "A" = 0 ∧
    provider_rate
      [({ startDate := 0, endDate := 30, usage := 0, bill := 10, provider := "A" } : BillingRow),
        { startDate := 30, endDate := 60, usage := 0, bill := 5, provider := "A" }] "A" = 0 := by
  constructor
  · norm_num [provider_amount, List.foldl_cons, List.foldl_nil]
  · norm_num [provider_rate, provider_billed, provider_amount, List.foldl_cons, List.foldl_nil]

/-- Month-indexed lookup into a monthly-statistics column, from lines 119
and 126-127 of the source: `user_month` is read as an arbitrary integer
with no range validation and the column is indexed at `user_month - 1`; a
pandas Series with integer index raises `KeyError` (embedded as `none`)
when that label lies outside 0..len-1. -/
def monthly_lookup (stats : List ℚ) (user_month : ℤ) : Option ℚ :=
  if user_month - 1 < 0 then none else stats[(user_month - 1).toNat]?

/-- Twelve monthly mean temperatures standing in for the `dfw_monthly.csv`
column. -/
def dfw_monthly_example : List ℚ :=
  [47, 51, 59, 66, 74, 82, 86, 86, 79, 68, 57, 48]

/-- C8 (defect witness): the source performs no month validation: querying
month 0 or month 13 makes the lookup at index `month - 1` fail with a bare
`KeyError` (embedded as `none`) — there is no `InvalidMonthError` path in
the source — while in-range months index the table normally. -/
theorem monthly_lookup_out_of_range_no_month_error :
    monthly_lookup dfw_monthly_example 0 = none ∧
    monthly_lookup dfw_monthly_example 13 = none ∧
    monthly_lookup dfw_monthly_example 1 = some 47 ∧
    monthly_lookup dfw_monthly_example 12 = some 48 := by
  refine ⟨?_, ?_, ?_, ?_⟩ <;> rfl

/-- The fitted quadratic usage model, line 122 of the source:
`func = lambda x: coefs[0]*x**2 + coefs[1]*x + coefs[2]`. -/
def quadFunc (a b c x : ℚ) : ℚ :=
  a * x ^ 2 + b * x + c

/-- Exact-arithmetic idealization of line 123 of the source
(`critical = fmin(func, 65.0)[0]`, scipy's Nelder-Mead simplex search):
the point the minimizer returns is a global minimum point of the
objective. -/
def IsMinimizer (a b c x : ℚ) : Prop :=
  ∀ y, quadFunc a b c x ≤ quadFunc a b c y

/-- The spec's analytic vertex location of the quadratic, −b/(2a). -/
def criticalPoint (a b : ℚ) : ℚ :=
  -b / (2 * a)

/-- Completing the square on the source's quadratic. -/
lemma quadFunc_complete_square (a b c y : ℚ) (ha : a ≠ 0) :
    quadFunc a b c y = a * (y + b / (2 * a)) ^ 2 + (c - b ^ 2 / (4 * a)) := by
  unfold quadFunc
  field_simp
  ring

/-- C4: any point at which the source's minimization of the fitted
quadratic attains the minimum coincides exactly with the analytic vertex
location −b/(2a) whenever a ≠ 0 (for a < 0 no minimum exists, so the
hypothesis is vacuous there). -/
theorem critical_matches_vertex (a b c x : ℚ) (ha : a ≠ 0)
    (hmin : IsMinimizer a b c x) :
    x = criticalPoint a b := by
  rcases lt_or_gt_of_ne ha with hneg | hpos
  · exfalso
    have h := hmin (-(b / (2 * a)) + (|x + b / (2 * a)| + 1))
    rw [quadFunc_complete_square a b c x ha, quadFunc_complete_square a b c _ ha] at h
    have harg : -(b / (2 * a)) + (|x + b / (2 * a)| + 1) + b / (2 * a)
        = |x + b / (2 * a)| + 1 := by ring
    rw [harg] at h
    have h2 : a * (x + b / (2 * a)) ^ 2 ≤ a * (|x + b / (2 * a)| + 1) ^ 2 := by
      linarith
    have hpos1 : (0 : ℚ) < 2 * |x + b / (2 * a)| + 1 := by positivity
    have hprod : a * (2 * |x + b / (2 * a)| + 1) < 0 :=
      mul_neg_of_neg_of_pos hneg hpos1
    have hexp : a * (|x + b / (2 * a)| + 1) ^ 2
        = a * (x + b / (2 * a)) ^ 2 + a * (2 * |x + b / (2 * a)| + 1) := by
      rw [← sq_abs (x + b / (2 * a))]
      ring
    linarith
  · have h := hmin (criticalPoint a b)
    rw [quadFunc_complete_square a b c x ha, quadFunc_complete_square a b c _ ha] at h
    have harg : criticalPoint a b + b / (2 * a) = 0 := by
      unfold criticalPoint
      ring
    rw [harg] at h
    have hs : (x + b / (2 * a)) ^ 2 ≤ 0 := by
      by_contra hcon
      push_neg at hcon
      nlinarith
    have hz : (x + b / (2 * a)) ^ 2 = 0 := le_antisymm hs (sq_nonneg _)
    have hx : x + b / (2 * a) = 0 := by
      exact pow_eq_zero_iff (two_ne_zero) |>.mp hz
    have : x = -(b / (2 * a)) := by linarith
    rw [this, criticalPoint, neg_div]

/-- Instantiation of `critical_matches_vertex` at the spec's test
coefficients (a, b, c) = (1, −4, 0): the minimum point 2 equals the
analytic vertex. -/
theorem critical_matches_vertex_witness : (2 : ℚ) = criticalPoint 1 (-4) :=
  critical_matches_vertex 1 (-4) 0 2 one_ne_zero (fun y => by
    unfold quadFunc
    nlinarith [sq_nonneg (y - 2)])
